import Mathlib

/-!
Verification of the generic SPI NOR flash chip driver layer
(components/spi_flash/include/spi_flash_chip_generic.h).

The repository artifact is the interface header: it carries the contracts
(doc comments, return-value documentation) of each generic driver operation,
plus the one inline function `spi_flash_is_quad_mode`.  The corresponding
implementation file is not part of the repository snapshot, so every
operation except `spi_flash_is_quad_mode` is modelled here from the
specification and the header's documented contract; such definitions carry a
doc comment beginning with `Modelled from the spec:`.

Machine integers are modelled as `Nat` (all quantities involved — addresses,
lengths, status bytes — are small enough that no 32-bit wrap is reachable in
the modelled operations).  Fallible operations return an explicit error
status; host-transport interactions are modelled as oracle inputs (the
outcome the transport would report), and the commands an operation issues to
the transport are recorded in an explicit action trace so that claims about
steps being executed or skipped are statable.
-/

/-- Error outcomes of the driver layer, after the error kinds of the spec
(ESP_OK, ESP_ERR_TIMEOUT, ESP_ERR_FLASH_UNSUPPORTED_CHIP,
ESP_ERR_FLASH_UNSUPPORTED_HOST, ESP_ERR_FLASH_NOT_INITIALISED, the
write-enable confirmation failure, and bus-level transport errors, the latter
carrying an opaque host error code). -/
inductive EspErr where
  | ok
  | timeout
  | unsupportedChip
  | unsupportedHost
  | notInitialised
  | writeEnableFailed
  | transport (code : Nat)
  deriving DecidableEq, Repr

/-- Commands/steps an operation may issue to the host transport; used as the
elements of the action traces recorded by the modelled operations. -/
inductive HostAction where
  | writeEnableCmd
  | eraseChipCmd
  | eraseSectorCmd (addr : Nat)
  | eraseBlockCmd (addr : Nat)
  | waitIdleCmd
  | readStatusCmd
  | writeStatusCmd (value : Nat)
  | configHostCmd
  | pageProgramCmd (addr : Nat) (len : Nat)
  deriving DecidableEq, Repr

/-- Read modes of a flash device handle, after the `esp_flash_read_mode_t`
enumeration referenced by the header (`SPI_FLASH_QIO`, `SPI_FLASH_QOUT`,
`SPI_FLASH_DIO`, `SPI_FLASH_DOUT`, `SPI_FLASH_FASTRD`, `SPI_FLASH_SLOWRD`).
The enumeration itself lives in esp_flash.h, which is not in the snapshot;
the two quad variants are the ones named by the header's inline code. -/
inductive SpiFlashReadMode where
  | qio
  | qout
  | dio
  | dout
  | fastrd
  | slowrd
  deriving DecidableEq, Repr

/-- Flash device handle (`esp_flash_t`), reduced to the attributes the
modelled operations consult: the configured read mode and the detected
capacity in bytes. -/
structure EspFlash where
  read_mode : SpiFlashReadMode
  size : Nat
  deriving DecidableEq, Repr

/-- Direct embedding of the inline function
`spi_flash_is_quad_mode` (spi_flash_chip_generic.h lines 271-274):
`return (chip->read_mode == SPI_FLASH_QIO) || (chip->read_mode == SPI_FLASH_QOUT);`.
It takes the handle by const pointer and returns a plain boolean, so it
cannot modify the handle; in this pure embedding that is by construction. -/
def spi_flash_is_quad_mode (chip : EspFlash) : Bool :=
  (chip.read_mode == SpiFlashReadMode.qio) || (chip.read_mode == SpiFlashReadMode.qout)

/-- Modelled from the spec: `spi_flash_chip_generic_probe` (only its
declaration is in the snapshot).  It issues a read-identifier transport
command — modelled by the oracle input `idRead`, the value the transport
reports — compares the returned value to the expected `flash_id`, and always
reports success; the comparison outcome is advisory, returned alongside for
callers that interpret it separately.  A transport-level failure of the
identifier read itself is passed through. -/
def spi_flash_chip_generic_probe (idRead : Except EspErr Nat) (flash_id : Nat) :
    EspErr × Bool :=
  match idRead with
  | Except.error e => (e, false)
  | Except.ok id => (EspErr.ok, id == flash_id)

/-- Modelled from the spec: `spi_flash_chip_generic_write_encrypted` (only
its declaration is in the snapshot).  The header documents the return as
always ESP_ERR_FLASH_UNSUPPORTED_HOST; no transport command is issued, so
the action trace is empty. -/
def spi_flash_chip_generic_write_encrypted (buffer : List Nat)
    (address : Nat) (length : Nat) : EspErr × List HostAction :=
  (EspErr.unsupportedHost, [])

/-- Modelled from the spec: `spi_flash_common_set_read_mode` (only its
declaration is in the snapshot).  For quad modes it reads the status
register with `qe_rdsr_command` (the value read back is the oracle input
`statusValue`), and if the quad-enable bit `qe_sr_bit` is not yet set it
performs write-enable, writes the status register with the bit forced on
via `qe_wrsr_command`, and waits idle; otherwise it is a no-op.  It then
reconfigures the host read mode.  The header documents the return as always
ESP_OK (currently), so the outcomes of the intermediate steps — supplied as
the oracle inputs `weRes`, `wrsrRes`, `waitRes`, `configRes` — do not alter
the returned status. -/
def spi_flash_common_set_read_mode (chip : EspFlash)
    (qe_rdsr_command qe_wrsr_command qe_sr_bitwidth qe_sr_bit : Nat)
    (statusValue : Nat) (weRes wrsrRes waitRes configRes : EspErr) :
    EspErr × List HostAction :=
  if spi_flash_is_quad_mode chip then
    if statusValue &&& qe_sr_bit = 0 then
      (EspErr.ok,
       [HostAction.readStatusCmd, HostAction.writeEnableCmd,
        HostAction.writeStatusCmd (statusValue ||| qe_sr_bit),
        HostAction.waitIdleCmd, HostAction.configHostCmd])
    else
      (EspErr.ok, [HostAction.readStatusCmd, HostAction.configHostCmd])
  else
    (EspErr.ok, [HostAction.configHostCmd])

/-- Modelled from the spec: `spi_flash_chip_generic_detect_size` (only its
declaration is in the snapshot).  Reads the identifier (oracle input
`idRead`), validates the fixed high-bit manufacturer pattern — the concrete
pattern is not pinned down by the header, so the validity predicate
`patternOk` is a parameter of the model — and on success returns
2 ^ N bytes where N is the identifier's low 4 bits; on a pattern mismatch it
fails with ESP_ERR_FLASH_UNSUPPORTED_CHIP, and a transport error from the
identifier read is passed through. -/
def spi_flash_chip_generic_detect_size (patternOk : Nat → Bool)
    (idRead : Except EspErr Nat) : Except EspErr Nat :=
  match idRead with
  | Except.error e => Except.error e
  | Except.ok id =>
      if patternOk id then Except.ok (2 ^ (id % 16))
      else Except.error EspErr.unsupportedChip

/-- Modelled from the spec: `spi_flash_chip_generic_write_enable` (only its
declaration is in the snapshot).  Issues the write-enable (06h) or
write-protect command — its transport outcome is the oracle input
`cmdResult` — then reads the status register (oracle input `statusRead`)
and confirms the write-enable-latched bit (bit 1) has the expected polarity:
set when enabling (`write_protect = false`), clear when protecting.  A wrong
polarity yields the driver-level write-enable failure, distinct from any
transport error. -/
def spi_flash_chip_generic_write_enable (cmdResult : EspErr)
    (statusRead : Except EspErr Nat) (write_protect : Bool) : EspErr :=
  if cmdResult ≠ EspErr.ok then cmdResult
  else
    match statusRead with
    | Except.error e => e
    | Except.ok sr =>
        if write_protect then
          (if sr / 2 % 2 = 0 then EspErr.ok else EspErr.writeEnableFailed)
        else
          (if sr / 2 % 2 = 1 then EspErr.ok else EspErr.writeEnableFailed)

/-- Modelled from the spec: the three-step erase protocol shared by
`spi_flash_chip_generic_erase_chip`, `spi_flash_chip_generic_erase_sector`
and `spi_flash_chip_generic_erase_block` (only their declarations are in the
snapshot): (1) write-enable, (2) the size-specific transport erase command
`cmdAction`, (3) wait-idle.  Step outcomes are the oracle inputs `weRes`,
`cmdRes`, `waitRes`; the first failing step aborts the sequence, its error
is returned unchanged, and the trace records exactly the steps executed. -/
def eraseSequence (weRes cmdRes waitRes : EspErr) (cmdAction : HostAction) :
    EspErr × List HostAction :=
  if weRes ≠ EspErr.ok then (weRes, [HostAction.writeEnableCmd])
  else if cmdRes ≠ EspErr.ok then (cmdRes, [HostAction.writeEnableCmd, cmdAction])
  else (waitRes, [HostAction.writeEnableCmd, cmdAction, HostAction.waitIdleCmd])

/-- Modelled from the spec: `spi_flash_chip_generic_erase_chip`, the
three-step protocol with the full-chip erase (C7h) command. -/
def spi_flash_chip_generic_erase_chip (weRes cmdRes waitRes : EspErr) :
    EspErr × List HostAction :=
  eraseSequence weRes cmdRes waitRes HostAction.eraseChipCmd

/-- Modelled from the spec: `spi_flash_chip_generic_erase_sector`, the
three-step protocol with the 4 KiB sector erase (20h) command at
`start_address`. -/
def spi_flash_chip_generic_erase_sector (weRes cmdRes waitRes : EspErr)
    (start_address : Nat) : EspErr × List HostAction :=
  eraseSequence weRes cmdRes waitRes (HostAction.eraseSectorCmd start_address)

/-- Modelled from the spec: `spi_flash_chip_generic_erase_block`, the
three-step protocol with the 64 KiB block erase (D8h) command at
`start_address`. -/
def spi_flash_chip_generic_erase_block (weRes cmdRes waitRes : EspErr)
    (start_address : Nat) : EspErr × List HostAction :=
  eraseSequence weRes cmdRes waitRes (HostAction.eraseBlockCmd start_address)

/-- One status poll of the wait-idle loop: the host transport is idle at
time `t` and the status register read then shows the write-in-progress bit
(bit 0) clear. -/
def pollClear (hostIdle : Nat → Bool) (status : Nat → Nat) (t : Nat) : Bool :=
  hostIdle t && (status t % 2 == 0)

/-- Modelled from the spec: the polling loop of
`spi_flash_chip_generic_wait_idle` together with the host-side sub-wait
`spi_flash_generic_wait_host_idle` (only their declarations are in the
snapshot).  The device is modelled by two traces indexed by elapsed
milliseconds: `hostIdle t` tells whether the host state machine is idle at
time `t`, and `status t` is the status register value a read at time `t`
returns.  One poll attempt happens per millisecond starting at time `t`
with `rem` milliseconds of budget left; waiting for the host decrements the
same budget as waiting for the chip.  The loop returns success, together
with the time of the successful poll, the instant a poll observes the
write-in-progress bit clear, and times out when the budget runs out first
(whether because the chip stays busy or the host never frees up). -/
def waitIdleFrom (hostIdle : Nat → Bool) (status : Nat → Nat) :
    Nat → Nat → EspErr × Nat
  | t, 0 =>
      if pollClear hostIdle status t then (EspErr.ok, t) else (EspErr.timeout, t)
  | t, rem + 1 =>
      if pollClear hostIdle status t then (EspErr.ok, t)
      else waitIdleFrom hostIdle status (t + 1) rem

/-- Modelled from the spec: `spi_flash_chip_generic_wait_idle`, entered at
time 0 with a budget of `timeout_ms` milliseconds. -/
def spi_flash_chip_generic_wait_idle (hostIdle : Nat → Bool)
    (status : Nat → Nat) (timeout_ms : Nat) : EspErr × Nat :=
  waitIdleFrom hostIdle status 0 timeout_ms

/-- The program-page size fixed by the hardware convention: 256 bytes. -/
def pageSize : Nat := 256

/-- Modelled from the spec: the chunk-splitting loop of
`spi_flash_chip_generic_write` (only its declaration is in the snapshot).
Each iteration programs `min length (min pageRemain maxWrite)` bytes, where
`pageRemain` is the distance from `address` to the next 256-byte page
boundary and `maxWrite` is the transport's maximum single-transfer size, and
continues at `address + chunk` with the remaining length.  The `fuel`
argument only bounds the recursion; since every chunk is non-empty whenever
`maxWrite > 0`, a fuel of `length` is always sufficient (see
`writeChunks`). -/
def writeChunksAux (maxWrite : Nat) :
    Nat → Nat → Nat → List (Nat × Nat)
  | 0, _, _ => []
  | _ + 1, _, 0 => []
  | fuel + 1, address, length =>
      let pageRemain := pageSize - address % pageSize
      let chunk := min length (min pageRemain maxWrite)
      (address, chunk) :: writeChunksAux maxWrite fuel (address + chunk) (length - chunk)

/-- Modelled from the spec: the sequence of (address, length) page-program
chunks that `spi_flash_chip_generic_write maxWrite address length`
performs, in order. -/
def writeChunks (maxWrite address length : Nat) : List (Nat × Nat) :=
  writeChunksAux maxWrite length address length

/-- Total number of bytes covered by a chunk list. -/
def chunksLen (cs : List (Nat × Nat)) : Nat :=
  (cs.map Prod.snd).sum

/-- The chunk list is gapless and overlap-free in sequence: the first chunk
starts at `a` and every later chunk starts exactly where its predecessor
ends. -/
def contiguousFrom : Nat → List (Nat × Nat) → Prop
  | _, [] => True
  | a, (a0, n) :: rest => a0 = a ∧ contiguousFrom (a + n) rest

/-- Example manufacturer-pattern predicate used by the detect-size witness:
the manufacturer byte (bits 16-23 of the 24-bit identifier) must be neither
all-zeros nor all-ones. -/
def examplePattern (id : Nat) : Bool :=
  (id / 2 ^ 16 % 256 != 0) && (id / 2 ^ 16 % 256 != 255)

/-- C7: for every expected identifier, `spi_flash_chip_generic_probe`
reports success whenever the identifier-read transport command itself
succeeds, whatever value `id` was read back; a mismatch against `flash_id`
only shows up in the advisory comparison component, never as an error. -/
theorem probe_ok_whenever_read_succeeds (id flash_id : Nat) :
    (spi_flash_chip_generic_probe (Except.ok id) flash_id).1 = EspErr.ok ∧
    (spi_flash_chip_generic_probe (Except.ok id) flash_id).2 = (id == flash_id) :=
  ⟨rfl, rfl⟩

/-- C8: for every buffer, address and length, the generic
`spi_flash_chip_generic_write_encrypted` fails with the unsupported-host
error and issues no transport command (its action trace is empty), and that
outcome is not success. -/
theorem write_encrypted_always_unsupported (buffer : List Nat)
    (address length : Nat) :
    spi_flash_chip_generic_write_encrypted buffer address length =
      (EspErr.unsupportedHost, []) ∧
    EspErr.unsupportedHost ≠ EspErr.ok :=
  ⟨rfl, by decide⟩

/-- C9: `spi_flash_is_quad_mode` returns true exactly when the handle's
configured read mode is one of the two quad variants (SPI_FLASH_QIO or
SPI_FLASH_QOUT); being a pure function of the handle, it cannot modify it. -/
theorem is_quad_mode_iff (chip : EspFlash) :
    spi_flash_is_quad_mode chip = true ↔
      (chip.read_mode = SpiFlashReadMode.qio ∨
       chip.read_mode = SpiFlashReadMode.qout) := by
  obtain ⟨m, s⟩ := chip
  cases m <;> simp [spi_flash_is_quad_mode]

/-- Witness for C9: a handle configured for SPI_FLASH_QOUT is recognised as
quad mode. -/
theorem is_quad_mode_iff_witness :
    spi_flash_is_quad_mode (EspFlash.mk SpiFlashReadMode.qout 0) = true :=
  (is_quad_mode_iff (EspFlash.mk SpiFlashReadMode.qout 0)).mpr (Or.inr rfl)

/-- C10: for every handle, status-read command, status-write command,
register bit width, quad-enable bit mask, status value read back, and
outcome of each intermediate step, `spi_flash_common_set_read_mode` returns
ESP_OK; no intermediate step outcome is ever surfaced as an error return. -/
theorem common_set_read_mode_always_ok (chip : EspFlash)
    (qe_rdsr_command qe_wrsr_command qe_sr_bitwidth qe_sr_bit statusValue : Nat)
    (weRes wrsrRes waitRes configRes : EspErr) :
    (spi_flash_common_set_read_mode chip qe_rdsr_command qe_wrsr_command
        qe_sr_bitwidth qe_sr_bit statusValue weRes wrsrRes waitRes configRes).1
      = EspErr.ok := by
  unfold spi_flash_common_set_read_mode
  split
  · split <;> rfl
  · rfl

/-- C5: when the write-enable command itself succeeded but the subsequent
status read reports the write-enable-latched bit (bit 1) unset,
`spi_flash_chip_generic_write_enable` with `write_protect = false` fails
with the write-enable driver failure — never success — and that failure is
distinct from every transport error. -/
theorem write_enable_unset_bit_fails (sr : Nat) (hbit : sr / 2 % 2 = 0) :
    spi_flash_chip_generic_write_enable EspErr.ok (Except.ok sr) false
      = EspErr.writeEnableFailed ∧
    spi_flash_chip_generic_write_enable EspErr.ok (Except.ok sr) false
      ≠ EspErr.ok ∧
    ∀ c : Nat, EspErr.writeEnableFailed ≠ EspErr.transport c := by
  have h1 : spi_flash_chip_generic_write_enable EspErr.ok (Except.ok sr) false
      = EspErr.writeEnableFailed := by
    simp [spi_flash_chip_generic_write_enable, hbit]
  exact ⟨h1, by rw [h1]; decide, fun c h => EspErr.noConfusion h⟩

/-- Witness for C5: with status value 4 (bit 2 set, bit 1 clear) the enable
confirmation fails with the write-enable driver failure. -/
theorem write_enable_unset_bit_fails_witness :
    spi_flash_chip_generic_write_enable EspErr.ok (Except.ok 4) false
      = EspErr.writeEnableFailed :=
  (write_enable_unset_bit_fails 4 (by decide)).1

/-- C3: for every pattern predicate and every identifier value read back,
`spi_flash_chip_generic_detect_size` succeeds with exactly 2 ^ N bytes,
N the identifier's low 4 bits, when the fixed high-bit manufacturer pattern
matches, and fails with the unsupported-chip error when it does not. -/
theorem detect_size_contract (patternOk : Nat → Bool) (id : Nat) :
    (patternOk id = true →
      spi_flash_chip_generic_detect_size patternOk (Except.ok id)
        = Except.ok (2 ^ (id % 16))) ∧
    (patternOk id = false →
      spi_flash_chip_generic_detect_size patternOk (Except.ok id)
        = Except.error EspErr.unsupportedChip) := by
  constructor <;> intro h <;> simp [spi_flash_chip_generic_detect_size, h]

/-- Witness for C3: identifier C84016h (valid manufacturer byte C8h, low
nibble 6) yields size 64; identifier FF4016h (corrupted all-ones
manufacturer byte) yields the unsupported-chip error. -/
theorem detect_size_contract_witness :
    spi_flash_chip_generic_detect_size examplePattern (Except.ok 0xC84016)
      = Except.ok 64 ∧
    spi_flash_chip_generic_detect_size examplePattern (Except.ok 0xFF4016)
      = Except.error EspErr.unsupportedChip :=
  ⟨(detect_size_contract examplePattern 0xC84016).1 (by decide),
   (detect_size_contract examplePattern 0xFF4016).2 (by decide)⟩

/-- C6: each of the three erase operations performs exactly the three-step
protocol write-enable, size-specific erase command, wait-idle: a failing
write-enable aborts with that error and only the write-enable step executed;
a failing erase command aborts with that error and the wait-idle step never
executed; otherwise all three steps run and the wait-idle outcome is
returned unchanged. -/
theorem erase_ops_three_step (weRes cmdRes waitRes : EspErr)
    (start_address : Nat) :
    spi_flash_chip_generic_erase_chip weRes cmdRes waitRes =
      (if weRes ≠ EspErr.ok then (weRes, [HostAction.writeEnableCmd])
       else if cmdRes ≠ EspErr.ok then
         (cmdRes, [HostAction.writeEnableCmd, HostAction.eraseChipCmd])
       else
         (waitRes, [HostAction.writeEnableCmd, HostAction.eraseChipCmd,
           HostAction.waitIdleCmd])) ∧
    spi_flash_chip_generic_erase_sector weRes cmdRes waitRes start_address =
      (if weRes ≠ EspErr.ok then (weRes, [HostAction.writeEnableCmd])
       else if cmdRes ≠ EspErr.ok then
         (cmdRes, [HostAction.writeEnableCmd,
           HostAction.eraseSectorCmd start_address])
       else
         (waitRes, [HostAction.writeEnableCmd,
           HostAction.eraseSectorCmd start_address, HostAction.waitIdleCmd])) ∧
    spi_flash_chip_generic_erase_block weRes cmdRes waitRes start_address =
      (if weRes ≠ EspErr.ok then (weRes, [HostAction.writeEnableCmd])
       else if cmdRes ≠ EspErr.ok then
         (cmdRes, [HostAction.writeEnableCmd,
           HostAction.eraseBlockCmd start_address])
       else
         (waitRes, [HostAction.writeEnableCmd,
           HostAction.eraseBlockCmd start_address, HostAction.waitIdleCmd])) :=
  ⟨rfl, rfl, rfl⟩

theorem pollClear_eq_true (hostIdle : Nat → Bool) (status : Nat → Nat)
    (t : Nat) :
    pollClear hostIdle status t = true ↔
      (hostIdle t = true ∧ status t % 2 = 0) := by
  simp [pollClear]

theorem waitIdleFrom_ok_of_poll (hostIdle : Nat → Bool) (status : Nat → Nat)
    (t rem : Nat) (h : pollClear hostIdle status t = true) :
    waitIdleFrom hostIdle status t rem = (EspErr.ok, t) := by
  cases rem <;> simp [waitIdleFrom, h]

theorem waitIdleFrom_zero (hostIdle : Nat → Bool) (status : Nat → Nat)
    (t : Nat) (h : pollClear hostIdle status t = false) :
    waitIdleFrom hostIdle status t 0 = (EspErr.timeout, t) := by
  simp [waitIdleFrom, h]

theorem waitIdleFrom_step (hostIdle : Nat → Bool) (status : Nat → Nat)
    (t rem : Nat) (h : pollClear hostIdle status t = false) :
    waitIdleFrom hostIdle status t (rem + 1)
      = waitIdleFrom hostIdle status (t + 1) rem := by
  simp [waitIdleFrom, h]

theorem waitIdleFrom_characterization (hostIdle : Nat → Bool)
    (status : Nat → Nat) :
    ∀ rem t,
      ((waitIdleFrom hostIdle status t rem).1 = EspErr.ok ↔
        ∃ k, k ≤ rem ∧ pollClear hostIdle status (t + k) = true) ∧
      ((waitIdleFrom hostIdle status t rem).1 = EspErr.ok ∨
       (waitIdleFrom hostIdle status t rem).1 = EspErr.timeout) ∧
      ((waitIdleFrom hostIdle status t rem).1 = EspErr.ok →
        t ≤ (waitIdleFrom hostIdle status t rem).2 ∧
        (waitIdleFrom hostIdle status t rem).2 ≤ t + rem ∧
        pollClear hostIdle status (waitIdleFrom hostIdle status t rem).2 = true ∧
        ∀ v, t ≤ v → v < (waitIdleFrom hostIdle status t rem).2 →
          pollClear hostIdle status v = false) := by
  intro rem
  induction rem with
  | zero =>
      intro t
      cases h : pollClear hostIdle status t with
      | true =>
          rw [waitIdleFrom_ok_of_poll hostIdle status t 0 h]
          refine ⟨?_, Or.inl rfl, ?_⟩
          · exact ⟨fun _ => ⟨0, Nat.le_refl 0, by simpa using h⟩, fun _ => rfl⟩
          · intro _
            refine ⟨Nat.le_refl t, by omega, by simpa using h, ?_⟩
            intro v hv1 hv2
            omega
      | false =>
          rw [waitIdleFrom_zero hostIdle status t h]
          refine ⟨?_, Or.inr rfl, ?_⟩
          · constructor
            · intro habs
              exact EspErr.noConfusion habs
            · rintro ⟨k, hk, hp⟩
              have hk0 : k = 0 := Nat.le_zero.mp hk
              subst hk0
              rw [Nat.add_zero, h] at hp
              exact absurd hp (by decide)
          · intro habs
            exact EspErr.noConfusion habs
  | succ r ih =>
      intro t
      cases h : pollClear hostIdle status t with
      | true =>
          rw [waitIdleFrom_ok_of_poll hostIdle status t (r + 1) h]
          refine ⟨?_, Or.inl rfl, ?_⟩
          · exact ⟨fun _ => ⟨0, by omega, by simpa using h⟩, fun _ => rfl⟩
          · intro _
            refine ⟨Nat.le_refl t, by omega, by simpa using h, ?_⟩
            intro v hv1 hv2
            omega
      | false =>
          rw [waitIdleFrom_step hostIdle status t r h]
          obtain ⟨ih1, ih2, ih3⟩ := ih (t + 1)
          refine ⟨?_, ih2, ?_⟩
          · rw [ih1]
            constructor
            · rintro ⟨k, hk, hp⟩
              refine ⟨k + 1, by omega, ?_⟩
              have he : t + (k + 1) = t + 1 + k := by omega
              rw [he]
              exact hp
            · rintro ⟨k, hk, hp⟩
              cases k with
              | zero =>
                  rw [Nat.add_zero, h] at hp
                  exact absurd hp (by decide)
              | succ j =>
                  refine ⟨j, by omega, ?_⟩
                  have he : t + 1 + j = t + (j + 1) := by omega
                  rw [he]
                  exact hp
          · intro hok
            obtain ⟨hb1, hb2, hb3, hb4⟩ := ih3 hok
            refine ⟨by omega, by omega, hb3, ?_⟩
            intro v hv1 hv2
            rcases Nat.eq_or_lt_of_le hv1 with heq | hlt
            · rw [← heq]
              exact h
            · exact hb4 v (by omega) hv2

/-- C4: `spi_flash_chip_generic_wait_idle` succeeds exactly when some poll
within the millisecond budget finds the host transport idle and the status
register's write-in-progress bit (bit 0) clear; its only outcomes are
success and timeout; on success it returned at the first such poll (the
poll time satisfies the condition and no earlier instant does); and when
the host side never becomes idle within the budget the result is timeout. -/
theorem wait_idle_contract (hostIdle : Nat → Bool) (status : Nat → Nat)
    (timeout_ms : Nat) :
    ((spi_flash_chip_generic_wait_idle hostIdle status timeout_ms).1
        = EspErr.ok ↔
      ∃ t, t ≤ timeout_ms ∧ hostIdle t = true ∧ status t % 2 = 0) ∧
    ((spi_flash_chip_generic_wait_idle hostIdle status timeout_ms).1
        = EspErr.ok ∨
     (spi_flash_chip_generic_wait_idle hostIdle status timeout_ms).1
        = EspErr.timeout) ∧
    ((spi_flash_chip_generic_wait_idle hostIdle status timeout_ms).1
        = EspErr.ok →
      (spi_flash_chip_generic_wait_idle hostIdle status timeout_ms).2
          ≤ timeout_ms ∧
      hostIdle (spi_flash_chip_generic_wait_idle hostIdle status timeout_ms).2
          = true ∧
      status (spi_flash_chip_generic_wait_idle hostIdle status timeout_ms).2
          % 2 = 0 ∧
      ∀ v, v < (spi_flash_chip_generic_wait_idle hostIdle status timeout_ms).2 →
        ¬(hostIdle v = true ∧ status v % 2 = 0)) ∧
    ((∀ t, t ≤ timeout_ms → hostIdle t = false) →
      (spi_flash_chip_generic_wait_idle hostIdle status timeout_ms).1
        = EspErr.timeout) := by
  rw [show spi_flash_chip_generic_wait_idle hostIdle status timeout_ms
      = waitIdleFrom hostIdle status 0 timeout_ms from rfl]
  obtain ⟨h1, h2, h3⟩ :=
    waitIdleFrom_characterization hostIdle status timeout_ms 0
  have hiff : (waitIdleFrom hostIdle status 0 timeout_ms).1 = EspErr.ok ↔
      ∃ t, t ≤ timeout_ms ∧ hostIdle t = true ∧ status t % 2 = 0 := by
    rw [h1]
    constructor
    · rintro ⟨k, hk, hp⟩
      rw [Nat.zero_add] at hp
      exact ⟨k, hk, (pollClear_eq_true hostIdle status k).mp hp⟩
    · rintro ⟨t, ht, hh, hs⟩
      refine ⟨t, ht, ?_⟩
      rw [Nat.zero_add]
      exact (pollClear_eq_true hostIdle status t).mpr ⟨hh, hs⟩
  refine ⟨hiff, h2, ?_, ?_⟩
  · intro hok
    obtain ⟨hb1, hb2, hb3, hb4⟩ := h3 hok
    have hp := (pollClear_eq_true hostIdle status _).mp hb3
    refine ⟨by omega, hp.1, hp.2, ?_⟩
    intro v hv hcontra
    have hv0 : pollClear hostIdle status v = false :=
      hb4 v (Nat.zero_le v) hv
    rw [(pollClear_eq_true hostIdle status v).mpr hcontra] at hv0
    exact absurd hv0 (by decide)
  · intro hnever
    rcases h2 with hok | hto
    · exfalso
      obtain ⟨t, ht, hh, _⟩ := hiff.mp hok
      rw [hnever t ht] at hh
      exact absurd hh (by decide)
    · exact hto

/-- Witness for C4: with an always-idle host and a device whose busy bit
clears from time 3 on, a 10 ms budget yields success; with the busy bit
never clearing, the same budget yields timeout. -/
theorem wait_idle_contract_witness :
    (spi_flash_chip_generic_wait_idle (fun _ => true)
        (fun t => if 3 ≤ t then 0 else 1) 10).1 = EspErr.ok ∧
    (spi_flash_chip_generic_wait_idle (fun _ => true) (fun _ => 1) 10).1
      = EspErr.timeout := by
  constructor
  · exact (wait_idle_contract (fun _ => true)
      (fun t => if 3 ≤ t then 0 else 1) 10).1.mpr ⟨3, by decide, rfl, by decide⟩
  · rcases (wait_idle_contract (fun _ => true) (fun _ => 1) 10).2.1 with h | h
    · exfalso
      obtain ⟨t, _, _, h3⟩ :=
        (wait_idle_contract (fun _ => true) (fun _ => 1) 10).1.mp h
      have h4 : (1 : Nat) % 2 = 0 := h3
      omega
    · exact h

theorem contiguousFrom_cover (cs : List (Nat × Nat)) :
    ∀ a, contiguousFrom a cs →
      ∀ x, (a ≤ x ∧ x < a + chunksLen cs) ↔
        ∃ p ∈ cs, p.1 ≤ x ∧ x < p.1 + p.2 := by
  induction cs with
  | nil =>
      intro a _ x
      constructor
      · rintro ⟨hx1, hx2⟩
        exfalso
        simp only [chunksLen, List.map_nil, List.sum_nil] at hx2
        omega
      · rintro ⟨p, hp, _⟩
        exact absurd hp (List.not_mem_nil p)
  | cons c rest ih =>
      obtain ⟨a0, n⟩ := c
      intro a hcont x
      obtain ⟨ha0, hrest⟩ := hcont
      subst ha0
      have hlen : chunksLen ((a0, n) :: rest) = n + chunksLen rest := by
        simp [chunksLen]
      constructor
      · rintro ⟨hx1, hx2⟩
        rw [hlen] at hx2
        by_cases hx : x < a0 + n
        · exact ⟨(a0, n), List.mem_cons_self (a0, n) rest, hx1, hx⟩
        · obtain ⟨p, hp, hpx⟩ :=
            (ih (a0 + n) hrest x).mp ⟨by omega, by omega⟩
          exact ⟨p, List.mem_cons_of_mem (a0, n) hp, hpx⟩
      · rintro ⟨p, hp, hpx⟩
        rw [hlen]
        rcases List.mem_cons.mp hp with heq | hmem
        · rw [heq] at hpx
          simp only at hpx
          omega
        · have := (ih (a0 + n) hrest x).mpr ⟨p, hmem, hpx⟩
          omega

theorem writeChunksAux_spec (maxWrite : Nat) (hm : 0 < maxWrite) :
    ∀ fuel length address, length ≤ fuel →
      contiguousFrom address (writeChunksAux maxWrite fuel address length) ∧
      chunksLen (writeChunksAux maxWrite fuel address length) = length ∧
      ∀ p ∈ writeChunksAux maxWrite fuel address length,
        0 < p.2 ∧ p.2 ≤ maxWrite ∧ p.1 % pageSize + p.2 ≤ pageSize := by
  intro fuel
  induction fuel with
  | zero =>
      intro length address hle
      have h0 : length = 0 := Nat.le_zero.mp hle
      subst h0
      refine ⟨trivial, rfl, ?_⟩
      rintro p hp
      exact absurd hp (List.not_mem_nil p)
  | succ f ih =>
      intro length address hle
      cases length with
      | zero =>
          refine ⟨trivial, rfl, ?_⟩
          rintro p hp
          exact absurd hp (List.not_mem_nil p)
      | succ l =>
          have hps : pageSize = 256 := rfl
          have hunf : writeChunksAux maxWrite (f + 1) address (l + 1) =
              (address,
                min (l + 1) (min (pageSize - address % pageSize) maxWrite)) ::
              writeChunksAux maxWrite f
                (address +
                  min (l + 1) (min (pageSize - address % pageSize) maxWrite))
                (l + 1 -
                  min (l + 1) (min (pageSize - address % pageSize) maxWrite)) :=
            rfl
          rw [hunf]
          set c := min (l + 1) (min (pageSize - address % pageSize) maxWrite)
            with hc
          have hcpos : 0 < c := by
            rw [hc, hps]
            omega
          have hcle : c ≤ l + 1 := by
            rw [hc]
            omega
          obtain ⟨ih1, ih2, ih3⟩ :=
            ih (l + 1 - c) (address + c) (by omega)
          refine ⟨⟨rfl, ih1⟩, ?_, ?_⟩
          · simp only [chunksLen, List.map_cons, List.sum_cons]
            simp only [chunksLen] at ih2
            rw [ih2]
            omega
          · intro p hp
            rcases List.mem_cons.mp hp with heq | hmem
            · rw [heq]
              refine ⟨hcpos, ?_, ?_⟩
              · rw [hc]
                omega
              · rw [hc, hps]
                omega
            · exact ih3 p hmem

/-- C1: for every transport maximum, start address and length, the chunk
sequence of the generic write is contiguous starting at the requested
address, its lengths sum to the requested length, its chunks' union is
exactly the byte range of the request, and every chunk is non-empty, at
most the transport maximum long, and confined to a single 256-byte page
(it never crosses a page boundary). -/
theorem generic_write_split_correct (maxWrite address length : Nat)
    (hm : 0 < maxWrite) :
    contiguousFrom address (writeChunks maxWrite address length) ∧
    chunksLen (writeChunks maxWrite address length) = length ∧
    (∀ x, (address ≤ x ∧ x < address + length) ↔
      ∃ p ∈ writeChunks maxWrite address length, p.1 ≤ x ∧ x < p.1 + p.2) ∧
    ∀ p ∈ writeChunks maxWrite address length,
      0 < p.2 ∧ p.2 ≤ maxWrite ∧ p.1 % pageSize + p.2 ≤ pageSize := by
  obtain ⟨h1, h2, h3⟩ :=
    writeChunksAux_spec maxWrite hm length length address (Nat.le_refl length)
  refine ⟨h1, h2, ?_, h3⟩
  intro x
  have hcov := contiguousFrom_cover (writeChunks maxWrite address length)
    address h1 x
  have h2' : chunksLen (writeChunks maxWrite address length) = length := h2
  rw [h2'] at hcov
  exact hcov

/-- Witness for C1: the split of a 300-byte write at address 16 with a
64-byte transport maximum is contiguous from 16 and covers 300 bytes. -/
theorem generic_write_split_correct_witness :
    contiguousFrom 16 (writeChunks 64 16 300) ∧
    chunksLen (writeChunks 64 16 300) = 300 :=
  ⟨(generic_write_split_correct 64 16 300 (by decide)).1,
   (generic_write_split_correct 64 16 300 (by decide)).2.1⟩

/-- C2 counterexample: a 300-byte write at address 10h with 256-byte pages
and a 64-byte transport maximum does not produce the chunk sequence claimed
by the spec, [64,64,64,64,44] at [10h,50h,90h,D0h,110h]: its fourth chunk
(64 bytes at D0h) would cross the page boundary at 100h. -/
theorem write_300_at_0x10_claimed_sequence_false :
    writeChunks 64 16 300 ≠
      [(16, 64), (80, 64), (144, 64), (208, 64), (272, 44)] := by
  decide

/-- C2 amended: the same write produces the chunk-length sequence
[64,64,64,48,60] at the addresses [10h,50h,90h,D0h,100h] — three full
64-byte transport chunks, a 48-byte chunk stopping at the page boundary at
100h, and a final 60-byte chunk. -/
theorem write_300_at_0x10_chunks :
    writeChunks 64 16 300 =
      [(16, 64), (80, 64), (144, 64), (208, 48), (256, 60)] := by
  decide
